import Mathlib

/-!
Verification of the clinical-report scanning tool (`app.py`).

Text is modelled as `List Char`.  The pure helpers of the source —
`sentence_hits`, `regex_hits`, `extract_text_from_pdf`, `umls_table` and the
TCGA CSV scan loop — are embedded as executable Lean functions.  Python
exceptions (`KeyError` from dictionary / DataFrame column access) are modelled
with `Option`: `none` means the exception propagates and the surrounding
computation aborts.
-/

set_option linter.unusedVariables false

namespace App

/-- ASCII lowercasing of one character, modelling `str.lower()` as used on the
clinical text (the inputs of interest are ASCII). -/
def pyToLower (c : Char) : Char :=
  if c = 'A' then 'a' else if c = 'B' then 'b' else if c = 'C' then 'c'
  else if c = 'D' then 'd' else if c = 'E' then 'e' else if c = 'F' then 'f'
  else if c = 'G' then 'g' else if c = 'H' then 'h' else if c = 'I' then 'i'
  else if c = 'J' then 'j' else if c = 'K' then 'k' else if c = 'L' then 'l'
  else if c = 'M' then 'm' else if c = 'N' then 'n' else if c = 'O' then 'o'
  else if c = 'P' then 'p' else if c = 'Q' then 'q' else if c = 'R' then 'r'
  else if c = 'S' then 's' else if c = 'T' then 't' else if c = 'U' then 'u'
  else if c = 'V' then 'v' else if c = 'W' then 'w' else if c = 'X' then 'x'
  else if c = 'Y' then 'y' else if c = 'Z' then 'z' else c

/-- Python `s.lower()` on a whole string. -/
def lowerStr (s : List Char) : List Char := s.map pyToLower

/-- Python's substring test `needle in hay`. -/
def strContains (hay needle : List Char) : Bool :=
  decide (needle <:+: hay)

/-- Python's `str.strip()`: drop whitespace from both ends. -/
def pyStrip (s : List Char) : List Char :=
  ((s.dropWhile Char.isWhitespace).reverse.dropWhile Char.isWhitespace).reverse

/-- The uppercase ASCII letters. -/
def upperAscii : List Char :=
  ['A', 'B', 'C', 'D', 'E', 'F', 'G', 'H', 'I', 'J', 'K', 'L', 'M',
   'N', 'O', 'P', 'Q', 'R', 'S', 'T', 'U', 'V', 'W', 'X', 'Y', 'Z']

/-- Keyword list `BLADDER_KWS` from the source. -/
def BLADDER_KWS : List (List Char) :=
  ["bladder".data, "urothelial".data, "urinary".data, "ureter".data,
   "transitional cell carcinoma".data]

/-- Keyword list `RECUR_KWS` from the source. -/
def RECUR_KWS : List (List Char) :=
  ["recurrence".data, "recurrent".data, "metastasis".data, "residual".data,
   "local invasion".data, "tumor".data]

/-- Function `sentence_hits(doc, keywords)` from the source:
`[s.text.strip() for s in doc.sents if any(k in s.text.lower() for k in keywords)]`.
The pipeline's sentences are passed in as their raw texts. -/
def sentence_hits (sents : List (List Char)) (keywords : List (List Char)) :
    List (List Char) :=
  (sents.filter (fun s => keywords.any (fun k => strContains (lowerStr s) k))).map
    pyStrip

/-- The predicate of spec §8.1: some keyword is a substring of the lowercased
sentence. -/
def kwPred (keywords : List (List Char)) (s : List Char) : Prop :=
  ∃ k ∈ keywords, k <:+: lowerStr s

instance kwPredDecidable (keywords : List (List Char)) :
    DecidablePred (kwPred keywords) := fun s => by
  unfold kwPred
  infer_instance

/-- The keyword matcher exactly as the spec words it (`keyword_hits` includes S
iff some k in K is a substring of S.lower()): a plain filter of the sentences,
returning them unchanged. -/
def spec_keyword_hits (sents : List (List Char)) (keywords : List (List Char)) :
    List (List Char) :=
  sents.filter (fun s => decide (kwPred keywords s))

/-- Sentence-ending punctuation of the regex split `(?<=[.!?])\s+`. -/
def isPunct (c : Char) : Bool := c == '.' || c == '!' || c == '?'

/-- Whether a string starts with a whitespace character. -/
def wsHead : List Char → Bool
  | [] => false
  | w :: _ => w.isWhitespace

/-- Worker for `re.split(r"(?<=[.!?])\s+", text)`: `acc` holds the reversed
characters of the piece under construction, `inSep` records that the scan is
inside a separator (a whitespace run opened right after `.`, `!` or `?`),
whose remaining whitespace is dropped.  A separator closes the current piece;
everything else accumulates into the piece. -/
def splitGo : List Char → List Char → Bool → List (List Char)
  | [], acc, _ => [acc.reverse]
  | c :: rest, acc, inSep =>
    if inSep && c.isWhitespace then
      splitGo rest acc true
    else if isPunct c && wsHead rest then
      (acc.reverse ++ [c]) :: splitGo rest [] true
    else
      splitGo rest (c :: acc) false

/-- Split `re.split(r"(?<=[.!?])\s+", text)` from `regex_hits`. -/
def splitSents (text : List Char) : List (List Char) := splitGo text [] false

/-- Digit classes of the two patterns. -/
def digit04 (c : Char) : Bool :=
  c == '0' || c == '1' || c == '2' || c == '3' || c == '4'

def digit03 (c : Char) : Bool := c == '0' || c == '1' || c == '2' || c == '3'

def digit01 (c : Char) : Bool := c == '0' || c == '1'

/-- Case-insensitive match of `T[0-4]N[0-3]M[0-1]` at the head of the string. -/
def matchTNMAt : List Char → Bool
  | t :: a :: n :: b :: m :: c :: _ =>
    (t == 'T' || t == 't') && digit04 a && (n == 'N' || n == 'n') && digit03 b &&
      (m == 'M' || m == 'm') && digit01 c
  | _ => false

/-- Case-insensitive match of `pT[0-4]` at the head of the string. -/
def matchPTAt : List Char → Bool
  | p :: t :: a :: _ =>
    (p == 'P' || p == 'p') && (t == 'T' || t == 't') && digit04 a
  | _ => false

/-- Search `re.search` of the compiled pattern `T[0-4]N[0-3]M[0-1]` with `re.I`. -/
def searchTNM (s : List Char) : Bool := s.tails.any matchTNMAt

/-- Search `re.search` of the compiled pattern `pT[0-4]` with `re.I`. -/
def searchPT (s : List Char) : Bool := s.tails.any matchPTAt

/-- Function `regex_hits(text, REGEX_PATTERNS)` from the source: split the raw text at
punctuation-plus-whitespace boundaries and keep the pieces in which either
compiled pattern finds a match. -/
def regex_hits (text : List Char) : List (List Char) :=
  (splitSents text).filter (fun s => searchTNM s || searchPT s)

/-- A declarative reading of a case-insensitive `T[0-4]N[0-3]M[0-1]` match
somewhere inside `s`. -/
def MatchesTNM (s : List Char) : Prop :=
  ∃ t a n b m c, (t = 'T' ∨ t = 't') ∧ a ∈ (['0', '1', '2', '3', '4'] : List Char) ∧
    (n = 'N' ∨ n = 'n') ∧ b ∈ (['0', '1', '2', '3'] : List Char) ∧
    (m = 'M' ∨ m = 'm') ∧ c ∈ (['0', '1'] : List Char) ∧
    [t, a, n, b, m, c] <:+: s

/-- A declarative reading of a case-insensitive `pT[0-4]` match somewhere
inside `s`. -/
def MatchesPT (s : List Char) : Prop :=
  ∃ p t a, (p = 'P' ∨ p = 'p') ∧ (t = 'T' ∨ t = 't') ∧
    a ∈ (['0', '1', '2', '3', '4'] : List Char) ∧ [p, t, a] <:+: s

/-- Whether the text contains `.`, `!` or `?` immediately followed by a
whitespace character (i.e. whether the regex split has any boundary). -/
def hasBoundary : List Char → Bool
  | [] => false
  | c :: rest => (isPunct c && wsHead rest) || hasBoundary rest

/-- Function `extract_text_from_pdf` from the source:
`"\n".join([p.extract_text() or "" for p in pdf.pages])`.  A page is modelled
as `Option (List Char)`: `none` when no text is extractable (Python `None`,
turned into `""` by `or ""`). -/
def extract_text_from_pdf (pages : List (Option (List Char))) : List Char :=
  List.intercalate ['\n'] (pages.map (fun p => p.getD []))

/-- A knowledge-base record (`linker.kb.cui_to_entity[cui]`). -/
structure Concept where
  preferred_name : String
  types : List String
deriving DecidableEq, Repr

/-- An entity mention as produced by the pipeline: its surface text and the
linker's `(cui, score)` pairs in ranking order. -/
structure Entity where
  text : String
  kb_ents : List (String × ℚ)
deriving DecidableEq, Repr

/-- One row of the UMLS concept table. -/
structure ConceptRow where
  text : String
  cui : String
  name : String
  type : String
  score : ℚ
deriving DecidableEq, Repr

/-- Lookup `linker.kb.cui_to_entity[cui]` as an association list; `none`
models the `KeyError` Python raises when the id is absent. -/
def resolveCui (kb : List (String × Concept)) (cui : String) : Option Concept :=
  (kb.find? (fun p => p.1 == cui)).map (fun p => p.2)

/-- Python's `round(score, 3)` on the model's rational scores. -/
def round3 (q : ℚ) : ℚ := (round (q * 1000) : ℚ) / 1000

/-- Run an option-valued function over a list, propagating the first failure —
the model of a Python loop body that may raise. -/
def mapOpt (f : α → Option β) : List α → Option (List β)
  | [] => some []
  | a :: l =>
    match f a with
    | none => none
    | some b => (mapOpt f l).map (fun bs => b :: bs)

/-- The row built by the `umls_table` loop body for entity `ent`, pair `pr`
and resolved concept `concept`. -/
def mkConceptRow (ent : Entity) (pr : String × ℚ) (concept : Concept) :
    ConceptRow :=
  { text := ent.text, cui := pr.1, name := concept.preferred_name,
    type := String.intercalate ", " concept.types, score := round3 pr.2 }

/-- Function `umls_table(doc)` from the source: one row per entity and linked
`(cui, score)` pair, in iteration order.  The dictionary access
`linker.kb.cui_to_entity[cui]` raises `KeyError` on an unknown id, which
aborts the whole construction — modelled by `none`. -/
def umls_table (kb : List (String × Concept)) (ents : List Entity) :
    Option (List ConceptRow) :=
  (mapOpt (fun ent =>
      mapOpt (fun pr => (resolveCui kb pr.1).map (mkConceptRow ent pr))
        ent.kb_ents)
    ents).map List.flatten

/-- One output row of the TCGA CSV scan. -/
structure ResultRow where
  patient_filename : List Char
  bladder_mentions : List Char
  recurrence_mentions : List Char
deriving DecidableEq, Repr

/-- Join `"; ".join(...)` from the scan loop. -/
def joinSemi (l : List (List Char)) : List Char := List.intercalate [';', ' '] l

/-- Column access `row["col"]` on a DataFrame row, modelled as association-list lookup;
`none` is the `KeyError` pandas raises when the column is absent. -/
def lookupCol (row : List (String × List Char)) (col : String) :
    Option (List Char) :=
  (row.find? (fun p => p.1 == col)).map (fun p => p.2)

/-- The body of the TCGA scan loop for one row.  `seg` is the external NLP
pipeline's sentence segmentation (`nlp(row["text"]).sents`).  Result
`none` models an uncaught `KeyError`; `some none` a row with no match
(nothing appended); `some (some r)` an appended result row.  Mirrors the
source order: `row["text"]` is read first, `row["patient_filename"]` only
when a match was found. -/
def processRow (seg : List Char → List (List Char))
    (row : List (String × List Char)) : Option (Option ResultRow) :=
  match lookupCol row "text" with
  | none => none
  | some t =>
    let bladder := sentence_hits (seg t) BLADDER_KWS
    let recur := sentence_hits (seg t) RECUR_KWS
    if bladder.isEmpty && recur.isEmpty then
      some none
    else
      match lookupCol row "patient_filename" with
      | none => none
      | some fn =>
        some (some { patient_filename := fn, bladder_mentions := joinSemi bladder,
                     recurrence_mentions := joinSemi recur })

/-- The TCGA CSV scan loop: `for _, row in df.head(n).iterrows(): ...`,
accumulating a result row only when a match was found.  `none` models an
uncaught exception from a row. -/
def csvScan (seg : List Char → List (List Char))
    (df : List (List (String × List Char))) (n : Nat) :
    Option (List ResultRow) :=
  (mapOpt (processRow seg) (df.take n)).map (List.filterMap id)

/-- Slider `st.slider("...", min_value=1, max_value=20, value=5)` from the source. -/
def csvSliderMin : Nat := 1

def csvSliderDefault : Nat := 5

def csvSliderMax : Nat := 20

/-- Modelled from the spec: the repository's second, CSV-only variant file is
not present under `src/`; per the spec its scan limit has default 50. -/
def tabularScanDefault : Nat := 50

/-- Modelled from the spec: the repository's second, CSV-only variant file is
not present under `src/`; per the spec its scan limit has maximum 500. -/
def tabularScanMax : Nat := 500

/-- The `text` cell of a row (defaulting to empty where absent). -/
def rowText (row : List (String × List Char)) : List Char :=
  (lookupCol row "text").getD []

/-- Whether the scan loop's `if bladder or recur:` test succeeds for a row. -/
def rowMatch (seg : List Char → List (List Char))
    (row : List (String × List Char)) : Bool :=
  !(sentence_hits (seg (rowText row)) BLADDER_KWS).isEmpty ||
    !(sentence_hits (seg (rowText row)) RECUR_KWS).isEmpty

/-- The result row the scan loop appends for a matching row. -/
def rowResult (seg : List Char → List (List Char))
    (row : List (String × List Char)) : ResultRow :=
  { patient_filename := (lookupCol row "patient_filename").getD [],
    bladder_mentions := joinSemi (sentence_hits (seg (rowText row)) BLADDER_KWS),
    recurrence_mentions := joinSemi (sentence_hits (seg (rowText row)) RECUR_KWS) }

lemma strContains_iff (hay needle : List Char) :
    strContains hay needle = true ↔ needle <:+: hay := by
  simp [strContains]

lemma pyToLower_notMem_upperAscii (c : Char) : pyToLower c ∉ upperAscii := by
  by_cases hc : c ∈ upperAscii
  · simp only [upperAscii, List.mem_cons, List.not_mem_nil, or_false] at hc
    rcases hc with rfl | rfl | rfl | rfl | rfl | rfl | rfl | rfl | rfl | rfl |
      rfl | rfl | rfl | rfl | rfl | rfl | rfl | rfl | rfl | rfl | rfl | rfl |
      rfl | rfl | rfl | rfl <;> decide
  · have heq : pyToLower c = c := by
      simp only [upperAscii, List.mem_cons, List.not_mem_nil, or_false,
        not_or] at hc
      obtain ⟨hA, hB, hC, hD, hE, hF, hG, hH, hI, hJ, hK, hL, hM, hN, hO, hP,
        hQ, hR, hS, hT, hU, hV, hW, hX, hY, hZ⟩ := hc
      simp only [pyToLower, if_neg hA, if_neg hB, if_neg hC, if_neg hD,
        if_neg hE, if_neg hF, if_neg hG, if_neg hH, if_neg hI, if_neg hJ,
        if_neg hK, if_neg hL, if_neg hM, if_neg hN, if_neg hO, if_neg hP,
        if_neg hQ, if_neg hR, if_neg hS, if_neg hT, if_neg hU, if_neg hV,
        if_neg hW, if_neg hX, if_neg hY, if_neg hZ]
    rw [heq]
    exact hc

/-- C9: the keyword matcher compares keywords verbatim against the lowercased
sentence text, so a keyword containing an uppercase ASCII letter never matches
any sentence: it contributes no hits, and dropping it from the keyword list
leaves the result unchanged. -/
theorem sentence_hits_uppercase_keyword_inert (k : List Char)
    (hk : ∃ c ∈ k, c ∈ upperAscii) :
    (∀ s, strContains (lowerStr s) k = false) ∧
    ∀ sents keywords,
      sentence_hits sents (k :: keywords) = sentence_hits sents keywords := by
  obtain ⟨c, hck, hcu⟩ := hk
  have hfalse : ∀ s : List Char, strContains (lowerStr s) k = false := by
    intro s
    cases h : strContains (lowerStr s) k with
    | false => rfl
    | true =>
      exfalso
      have hinf : k <:+: lowerStr s := (strContains_iff _ _).mp h
      have hmem : c ∈ lowerStr s := hinf.subset hck
      obtain ⟨c', _, hc'⟩ := List.mem_map.mp hmem
      exact pyToLower_notMem_upperAscii c' (hc' ▸ hcu)
  refine ⟨hfalse, ?_⟩
  intro sents keywords
  unfold sentence_hits
  congr 1
  apply List.filter_congr
  intro s hs
  simp [hfalse s]

def c9kw : List Char := "Tumor".data

def c9sent : List Char := "a tumor was found".data

theorem sentence_hits_uppercase_keyword_inert_witness :
    sentence_hits [c9sent] [c9kw] = sentence_hits [c9sent] [] :=
  (sentence_hits_uppercase_keyword_inert c9kw (by decide)).2 [c9sent] []

def c1sent : List Char := " tumor ".data

def c1kw : List Char := "tumor".data

/-- C1 (counterexample): on a sentence carrying surrounding whitespace the
matcher does not return the matching sentence itself (as the claim's filter
semantics demands): it returns its stripped text. -/
theorem sentence_hits_strips_counterexample :
    sentence_hits [c1sent] [c1kw] ≠ spec_keyword_hits [c1sent] [c1kw] := by
  decide

/-- C1 (amended): `sentence_hits` returns the whitespace-stripped texts of
exactly the sentences whose lowercased text contains some keyword as a
substring, preserving input order; an empty keyword list yields an empty
result on any input. -/
theorem sentence_hits_amended (sents keywords : List (List Char)) :
    sentence_hits sents keywords = (spec_keyword_hits sents keywords).map pyStrip ∧
    (keywords = [] → sentence_hits sents keywords = []) ∧
    ∀ t, t ∈ sentence_hits sents keywords ↔
      ∃ s ∈ sents, kwPred keywords s ∧ t = pyStrip s := by
  have hfil : ∀ s : List Char,
      (keywords.any fun k => strContains (lowerStr s) k) =
        decide (kwPred keywords s) := by
    intro s
    rw [Bool.eq_iff_iff]
    simp [strContains, kwPred]
  refine ⟨?_, ?_, ?_⟩
  · unfold sentence_hits spec_keyword_hits
    congr 1
    exact List.filter_congr fun s _ => hfil s
  · intro h
    subst h
    simp [sentence_hits]
  · intro t
    simp only [sentence_hits, List.mem_map, List.mem_filter, List.any_eq_true,
      strContains_iff]
    constructor
    · rintro ⟨s, ⟨hs, hk⟩, rfl⟩
      exact ⟨s, hs, hk, rfl⟩
    · rintro ⟨s, hs, hk, rfl⟩
      exact ⟨s, ⟨hs, hk⟩, rfl⟩

theorem sentence_hits_amended_witness : sentence_hits [c1sent] [] = [] :=
  (sentence_hits_amended [c1sent] []).2.1 rfl

lemma infix_append_right (u : List α) {s t : List α} (h : s <:+: t) :
    s <:+: u ++ t := by
  obtain ⟨x, y, hxy⟩ := h
  exact ⟨u ++ x, y, by rw [← hxy]; simp⟩

lemma searchTNM_iff (s : List Char) : searchTNM s = true ↔ MatchesTNM s := by
  unfold searchTNM MatchesTNM
  rw [List.any_eq_true]
  constructor
  · rintro ⟨u, hu, hm⟩
    rw [List.mem_tails _ _] at hu
    rcases u with _ | ⟨t, _ | ⟨a, _ | ⟨n, _ | ⟨b, _ | ⟨m, _ | ⟨c, r⟩⟩⟩⟩⟩⟩ <;>
      simp [matchTNMAt, digit04, digit03, digit01] at hm
    obtain ⟨⟨⟨⟨⟨ht, ha⟩, hn⟩, hb⟩, hmm⟩, hc⟩ := hm
    refine ⟨t, a, n, b, m, c, ht, ?_, hn, ?_, hmm, ?_, ?_⟩
    · simpa only [List.mem_cons, List.not_mem_nil, or_false, or_assoc] using ha
    · simpa only [List.mem_cons, List.not_mem_nil, or_false, or_assoc] using hb
    · simpa only [List.mem_cons, List.not_mem_nil, or_false, or_assoc] using hc
    · exact (List.infix_iff_prefix_suffix).mpr ⟨t :: a :: n :: b :: m :: c :: r,
        ⟨r, rfl⟩, hu⟩
  · rintro ⟨t, a, n, b, m, c, ht, ha, hn, hb, hmm, hc, hinf⟩
    obtain ⟨u, hpre, hsuf⟩ := (List.infix_iff_prefix_suffix).mp hinf
    obtain ⟨r, rfl⟩ := hpre
    refine ⟨t :: a :: n :: b :: m :: c :: r, (List.mem_tails _ _).mpr hsuf, ?_⟩
    simp only [List.mem_cons, List.not_mem_nil, or_false] at ha hb hc
    simp only [matchTNMAt, Bool.and_eq_true, Bool.or_eq_true, beq_iff_eq,
      digit04, digit03, digit01]
    refine ⟨⟨⟨⟨⟨ht, ?_⟩, hn⟩, ?_⟩, hmm⟩, ?_⟩
    · simpa only [or_assoc] using ha
    · simpa only [or_assoc] using hb
    · simpa only [or_assoc] using hc

lemma searchPT_iff (s : List Char) : searchPT s = true ↔ MatchesPT s := by
  unfold searchPT MatchesPT
  rw [List.any_eq_true]
  constructor
  · rintro ⟨u, hu, hm⟩
    rw [List.mem_tails _ _] at hu
    rcases u with _ | ⟨p, _ | ⟨t, _ | ⟨a, r⟩⟩⟩ <;>
      simp [matchPTAt, digit04] at hm
    obtain ⟨⟨hp, ht⟩, ha⟩ := hm
    refine ⟨p, t, a, hp, ht, ?_, ?_⟩
    · simpa only [List.mem_cons, List.not_mem_nil, or_false, or_assoc] using ha
    · exact (List.infix_iff_prefix_suffix).mpr ⟨p :: t :: a :: r, ⟨r, rfl⟩, hu⟩
  · rintro ⟨p, t, a, hp, ht, ha, hinf⟩
    obtain ⟨u, hpre, hsuf⟩ := (List.infix_iff_prefix_suffix).mp hinf
    obtain ⟨r, rfl⟩ := hpre
    refine ⟨p :: t :: a :: r, (List.mem_tails _ _).mpr hsuf, ?_⟩
    simp only [List.mem_cons, List.not_mem_nil, or_false] at ha
    simp only [matchPTAt, Bool.and_eq_true, Bool.or_eq_true, beq_iff_eq,
      digit04]
    refine ⟨⟨hp, ht⟩, ?_⟩
    simpa only [or_assoc] using ha

/-- C2: `regex_hits` splits the text at boundaries where `.`, `!` or `?` is
followed by whitespace and keeps exactly the sentences in which one of the
patterns `T[0-4]N[0-3]M[0-1]` or `pT[0-4]` matches case-insensitively
somewhere, in input order. -/
theorem regex_hits_spec (text : List Char) :
    (∀ s, s ∈ regex_hits text ↔
      s ∈ splitSents text ∧ (MatchesTNM s ∨ MatchesPT s)) ∧
    (regex_hits text).Sublist (splitSents text) := by
  constructor
  · intro s
    simp only [regex_hits, List.mem_filter, Bool.or_eq_true, searchTNM_iff,
      searchPT_iff]
  · exact List.filter_sublist _

lemma splitGo_infix :
    ∀ (l acc : List Char) (inSep : Bool), (inSep = true → acc = []) →
      ∀ s ∈ splitGo l acc inSep, s <:+: acc.reverse ++ l := by
  intro l
  induction l with
  | nil =>
    intro acc inSep hinv s hs
    simp only [splitGo, List.mem_singleton] at hs
    subst hs
    simp
  | cons c rest ih =>
    intro acc inSep hinv s hs
    unfold splitGo at hs
    by_cases h1 : (inSep && c.isWhitespace) = true
    · rw [if_pos h1] at hs
      have hSep : inSep = true := ((Bool.and_eq_true _ _).mp h1).1
      have hacc : acc = [] := hinv hSep
      subst hacc
      have hrec := ih [] true (fun _ => rfl) s hs
      simp only [List.reverse_nil, List.nil_append] at hrec ⊢
      simpa using infix_append_right [c] hrec
    · rw [if_neg h1] at hs
      by_cases h2 : (isPunct c && wsHead rest) = true
      · rw [if_pos h2] at hs
        rcases List.mem_cons.mp hs with rfl | hs'
        · exact ⟨[], rest, by simp⟩
        · have hrec := ih [] true (fun _ => rfl) s hs'
          simp only [List.reverse_nil, List.nil_append] at hrec
          have h4 := infix_append_right acc.reverse (infix_append_right [c] hrec)
          simpa using h4
      · rw [if_neg h2] at hs
        have hrec := ih (c :: acc) false (by simp) s hs
        simpa [List.append_assoc] using hrec

lemma splitGo_noBoundary :
    ∀ (l acc : List Char), hasBoundary l = false →
      splitGo l acc false = [acc.reverse ++ l] := by
  intro l
  induction l with
  | nil => intro acc h; simp [splitGo]
  | cons c rest ih =>
    intro acc h
    have h' : (isPunct c && wsHead rest) = false ∧ hasBoundary rest = false := by
      simpa [hasBoundary] using h
    unfold splitGo
    rw [if_neg (by simp), if_neg (by simp [h'.1])]
    rw [ih (c :: acc) h'.2]
    simp

/-- C10: when the text has no occurrence of `.`, `!` or `?` followed by
whitespace, `regex_hits` treats the whole text as one sentence and returns
either `[]` or `[text]`; and in general every returned sentence is a
contiguous, unmodified substring of the input. -/
theorem regex_hits_single_sentence (text : List Char) :
    (hasBoundary text = false →
      regex_hits text = [] ∨ regex_hits text = [text]) ∧
    ∀ s, s ∈ regex_hits text → s <:+: text := by
  constructor
  · intro h
    have hsent : splitSents text = [text] := by
      simpa [splitSents] using splitGo_noBoundary text [] h
    unfold regex_hits
    rw [hsent]
    cases hb : (searchTNM text || searchPT text) with
    | false => left; simp [List.filter, hb]
    | true => right; simp [List.filter, hb]
  · intro s hs
    have hmem : s ∈ splitSents text := (List.mem_filter.mp hs).1
    have := splitGo_infix text [] false (by simp) s hmem
    simpa using this

def c10text : List Char := "pT2 lesion of bladder".data

/-- Witness for C10 at a concrete boundary-free text. -/
theorem regex_hits_single_sentence_witness :
    (regex_hits c10text = [] ∨ regex_hits c10text = [c10text]) ∧
      c10text <:+: c10text :=
  ⟨(regex_hits_single_sentence c10text).1 (by decide),
   (regex_hits_single_sentence c10text).2 c10text (by decide)⟩

lemma mapOpt_eq_some_map (f : α → Option β) (g : α → β) :
    ∀ l : List α, (∀ a ∈ l, f a = some (g a)) → mapOpt f l = some (l.map g) := by
  intro l
  induction l with
  | nil => intro h; rfl
  | cons a l ih =>
    intro h
    have ha := h a (List.mem_cons_self a l)
    have hl := ih fun b hb => h b (List.mem_cons_of_mem a hb)
    simp [mapOpt, ha, hl]

lemma mapOpt_eq_none (f : α → Option β) :
    ∀ l : List α, ∀ a ∈ l, f a = none → mapOpt f l = none := by
  intro l
  induction l with
  | nil => intro a ha; exact absurd ha (List.not_mem_nil a)
  | cons b l ih =>
    intro a ha hfa
    rcases List.mem_cons.mp ha with rfl | ha'
    · simp [mapOpt, hfa]
    · cases hfb : f b with
      | none => simp [mapOpt, hfb]
      | some v => simp [mapOpt, hfb, ih a ha' hfa]

/-- C3 (amended): when a linked concept id fails to resolve, the dictionary
access raises `KeyError` and the whole table construction aborts — no row is
skipped and no table is produced. -/
theorem umls_table_unresolved_aborts (kb : List (String × Concept))
    (ents : List Entity) (ent : Entity) (pr : String × ℚ)
    (hent : ent ∈ ents) (hpr : pr ∈ ent.kb_ents)
    (hres : resolveCui kb pr.1 = none) :
    umls_table kb ents = none := by
  have hin : mapOpt (fun pr => (resolveCui kb pr.1).map (mkConceptRow ent pr))
      ent.kb_ents = none :=
    mapOpt_eq_none _ _ pr hpr (by simp [hres])
  have hout := mapOpt_eq_none
    (fun ent => mapOpt (fun pr => (resolveCui kb pr.1).map (mkConceptRow ent pr))
      ent.kb_ents) ents ent hent hin
  simp [umls_table, hout]

def c3kb : List (String × Concept) :=
  [("C0005682", { preferred_name := "Urinary Bladder", types := ["T023"] })]

def c3ent : Entity :=
  { text := "bladder", kb_ents := [("C0005682", 1), ("C9999999", 1)] }

/-- C3 (counterexample): an entity with two linked pairs whose second id is
unknown does not produce a one-row table — the construction aborts with an
uncaught `KeyError` and yields nothing. -/
theorem umls_table_keyerror_counterexample : umls_table c3kb [c3ent] = none := by
  rfl

theorem umls_table_unresolved_aborts_witness :
    umls_table c3kb [c3ent] = none :=
  umls_table_unresolved_aborts c3kb [c3ent] c3ent ("C9999999", 1)
    (List.mem_cons_self _ _)
    (List.mem_cons_of_mem _ (List.mem_cons_self _ _)) rfl

/-- C6: when every linked concept id resolves, the table has exactly one row
per (entity, linked pair) combination, in the entity-then-concept iteration
order of the input (no sorting), with each row's score rounded to 3 decimal
places. -/
theorem umls_table_all_resolved (kb : List (String × Concept))
    (ents : List Entity)
    (h : ∀ ent ∈ ents, ∀ pr ∈ ent.kb_ents, (resolveCui kb pr.1).isSome) :
    umls_table kb ents =
      some (ents.flatMap fun ent => ent.kb_ents.map fun pr =>
        mkConceptRow ent pr ((resolveCui kb pr.1).getD ⟨"", []⟩)) := by
  have houter : mapOpt (fun ent =>
      mapOpt (fun pr => (resolveCui kb pr.1).map (mkConceptRow ent pr))
        ent.kb_ents) ents =
      some (ents.map fun ent => ent.kb_ents.map fun pr =>
        mkConceptRow ent pr ((resolveCui kb pr.1).getD ⟨"", []⟩)) := by
    apply mapOpt_eq_some_map
    intro ent hent
    apply mapOpt_eq_some_map
    intro pr hpr
    have hsome := h ent hent pr hpr
    cases hres : resolveCui kb pr.1 with
    | none => rw [hres] at hsome; simp at hsome
    | some concept => simp [hres]
  simp [umls_table, houter, List.flatMap_def]

def c6kb : List (String × Concept) :=
  [("C0005682", { preferred_name := "Urinary Bladder", types := ["T023"] }),
   ("C0027651", { preferred_name := "Neoplasm", types := ["T191"] })]

def c6ents : List Entity :=
  [{ text := "bladder tumor", kb_ents := [("C0005682", 1), ("C0027651", 1)] }]

theorem umls_table_all_resolved_witness :
    umls_table c6kb c6ents =
      some (c6ents.flatMap fun ent => ent.kb_ents.map fun pr =>
        mkConceptRow ent pr ((resolveCui c6kb pr.1).getD ⟨"", []⟩)) :=
  umls_table_all_resolved c6kb c6ents (by decide)

/-- C4: PDF extraction maps an unextractable page to the empty string instead
of failing (a `none` page and an empty page contribute identically), and
joins per-page texts with newline separators — with pages 1 and 3 extractable
and page 2 not, the result is `page1 ++ "\n" ++ "" ++ "\n" ++ page3`. -/
theorem extract_text_from_pdf_spec :
    (∀ pre post : List (Option (List Char)),
      extract_text_from_pdf (pre ++ none :: post) =
        extract_text_from_pdf (pre ++ some [] :: post)) ∧
    ∀ p1 p3 : List Char,
      extract_text_from_pdf [some p1, none, some p3] =
        p1 ++ ['\n'] ++ [] ++ ['\n'] ++ p3 := by
  constructor
  · intro pre post
    simp [extract_text_from_pdf]
  · intro p1 p3
    simp [extract_text_from_pdf, List.intercalate, List.intersperse]

/-- C5: the CSV scan accumulates a result row for a report exactly when at
least one of its bladder or recurrence sentence-match lists is non-empty:
on a valid batch the output is the match-filtered prefix mapped to its result
rows, in file order. -/
theorem csv_scan_keeps_exactly_matching_rows
    (seg : List Char → List (List Char))
    (df : List (List (String × List Char))) (n : Nat)
    (h : ∀ row ∈ df.take n, (lookupCol row "text").isSome ∧
      (lookupCol row "patient_filename").isSome) :
    csvScan seg df n =
      some (((df.take n).filter (rowMatch seg)).map (rowResult seg)) := by
  have main : ∀ l : List (List (String × List Char)),
      (∀ row ∈ l, (lookupCol row "text").isSome ∧
        (lookupCol row "patient_filename").isSome) →
      (mapOpt (processRow seg) l).map (List.filterMap id) =
        some ((l.filter (rowMatch seg)).map (rowResult seg)) := by
    intro l
    induction l with
    | nil => intro h'; rfl
    | cons row l ih =>
      intro h'
      obtain ⟨ht, hfn⟩ := h' row (List.mem_cons_self row l)
      have hrest := ih fun r hr => h' r (List.mem_cons_of_mem row hr)
      obtain ⟨t, htv⟩ := Option.isSome_iff_exists.mp ht
      obtain ⟨fn, hfnv⟩ := Option.isSome_iff_exists.mp hfn
      obtain ⟨l', hl'⟩ : ∃ l', mapOpt (processRow seg) l = some l' := by
        cases hml : mapOpt (processRow seg) l with
        | none => rw [hml] at hrest; simp at hrest
        | some l' => exact ⟨l', rfl⟩
      rw [hl'] at hrest
      have hrowText : rowText row = t := by simp [rowText, htv]
      cases hcond : ((sentence_hits (seg t) BLADDER_KWS).isEmpty &&
          (sentence_hits (seg t) RECUR_KWS).isEmpty) with
      | true =>
        have hmatch : rowMatch seg row = false := by
          simp only [Bool.and_eq_true, List.isEmpty_iff] at hcond
          simp [rowMatch, hrowText, hcond.1, hcond.2]
        have hproc : processRow seg row = some none := by
          simp [processRow, htv, hcond]
        simp only [mapOpt, hproc, hl', Option.map_some, List.filter_cons,
          hmatch, Bool.false_eq_true, if_false, List.filterMap_cons]
        simpa using hrest
      | false =>
        have hmatch : rowMatch seg row = true := by
          unfold rowMatch
          rw [hrowText]
          cases hb1 : (sentence_hits (seg t) BLADDER_KWS).isEmpty <;>
            cases hb2 : (sentence_hits (seg t) RECUR_KWS).isEmpty <;>
              simp_all
        have hproc : processRow seg row =
            some (some (rowResult seg row)) := by
          simp [processRow, htv, hcond, hfnv, rowResult, hrowText]
        simp only [mapOpt, hproc, hl', Option.map_some, List.filter_cons,
          hmatch, if_true, List.filterMap_cons, List.map_cons]
        simpa using hrest
  exact main (df.take n) h

def c5seg : List Char → List (List Char) := fun t => [t]

def c5rowA : List (String × List Char) :=
  [("patient_filename", "p1".data), ("text", "bladder tumor noted".data)]

def c5rowB : List (String × List Char) :=
  [("patient_filename", "p2".data), ("text", "unremarkable colon biopsy".data)]

/-- Witness for C5: report A has a match, report B has none — the output
contains exactly the one row for A. -/
theorem csv_scan_keeps_exactly_matching_rows_witness :
    csvScan c5seg [c5rowA, c5rowB] 2 = some [rowResult c5seg c5rowA] := by
  have h := csv_scan_keeps_exactly_matching_rows c5seg [c5rowA, c5rowB] 2
    (by decide)
  rw [h]
  rfl

def c7seg : List Char → List (List Char) := fun t => [t]

def c7row : List (String × List Char) := [("text", "hello world".data)]

/-- C7 (counterexample): with the required column `patient_filename` absent
and no keyword match in the lone row, the scan neither raises nor blocks —
it completes normally with an empty result table, so no `FormatError` stops
it. -/
theorem csv_scan_no_format_error_counterexample :
    lookupCol c7row "patient_filename" = none ∧
      csvScan c7seg [c7row] 5 = some [] :=
  ⟨rfl, rfl⟩

/-- C7 (amended): no upfront column validation exists and no `FormatError` is
defined.  A missing `text` column raises `KeyError` at the first processed
row, aborting the scan mid-loop; a missing `patient_filename` column raises
only when a processed row has a keyword match; otherwise the scan completes
normally. -/
theorem csv_scan_missing_columns_amended
    (seg : List Char → List (List Char)) (row : List (String × List Char))
    (rest : List (List (String × List Char))) (n : Nat) (hn : 0 < n) :
    (lookupCol row "text" = none → csvScan seg (row :: rest) n = none) ∧
    ∀ t, lookupCol row "text" = some t →
      lookupCol row "patient_filename" = none →
      (sentence_hits (seg t) BLADDER_KWS ≠ [] ∨
        sentence_hits (seg t) RECUR_KWS ≠ []) →
      csvScan seg (row :: rest) n = none := by
  obtain ⟨m, rfl⟩ : ∃ m, n = m + 1 := ⟨n - 1, by omega⟩
  constructor
  · intro ht
    simp [csvScan, List.take_succ_cons, mapOpt, processRow, ht]
  · intro t ht hfn hmatch
    have hcond : ((sentence_hits (seg t) BLADDER_KWS).isEmpty &&
        (sentence_hits (seg t) RECUR_KWS).isEmpty) = false := by
      rcases hmatch with hm | hm <;>
        simp [List.isEmpty_iff, hm]
    simp [csvScan, List.take_succ_cons, mapOpt, processRow, ht, hcond, hfn]

def c7row2 : List (String × List Char) := [("patient_filename", "p3".data)]

def c7wrow : List (String × List Char) := [("text", "bladder mass seen".data)]

theorem csv_scan_missing_columns_amended_witness :
    csvScan c7seg [c7row2] 1 = none ∧ csvScan c7seg [c7wrow] 1 = none :=
  ⟨(csv_scan_missing_columns_amended c7seg c7row2 [] 1 (by decide)).1 rfl,
   (csv_scan_missing_columns_amended c7seg c7wrow [] 1 (by decide)).2
     "bladder mass seen".data rfl rfl (by decide)⟩

/-- C8: the scan processes only the contiguous prefix of the first `n` input
rows in file order, and the work limits are fixed per mode: the CSV slider of
this file has bounds 1–20 with default 5, and (per the spec, for the variant
file not present in the source tree) the other mode's limit has default 50
and maximum 500. -/
theorem csv_scan_prefix_and_limits :
    (∀ (seg : List Char → List (List Char))
      (df : List (List (String × List Char))) (n : Nat),
      csvScan seg df n = csvScan seg (df.take n) n) ∧
    csvSliderMin = 1 ∧ csvSliderDefault = 5 ∧ csvSliderMax = 20 ∧
    tabularScanDefault = 50 ∧ tabularScanMax = 500 := by
  refine ⟨?_, rfl, rfl, rfl, rfl, rfl⟩
  intro seg df n
  simp [csvScan, List.take_take]

end App
